import Mathlib

/-
Verification of the core logic of the obsidian-plugin-edit-helper
repository (src/main.ts, current version, i.e. the chunk whose header
reads "last commit: 0.1.2").

The development shallowly embeds:
  * the marker parser: `line.match(PLUGIN_CONSTANTS.OUTLINER_MARKER_REGEX)`
    where OUTLINER_MARKER_REGEX is the JavaScript regular expression
    /^\s*(#+\s|[-*]\s|\d+\.\s)/  (src/main.ts:458);
  * the editor commands built on it (empty-current-line-content-except-marker,
    select-current-line-or-cancel);
  * the settings loading (loadSettings, DEFAULT_SETTINGS);
  * the idle scheduler (resetIdleTimer, the toggle command, the settings
    slider onChange, onunload) together with an explicit model of the
    browser timer table (window.setTimeout / window.clearTimeout), so that
    "at most one pending timer" is a genuine invariant rather than a
    modelling artifact;
  * the activity-signal registrations performed in onload.

Strings are embedded as List Char; machine times are Nat milliseconds.
-/

-- ===================================================================
-- Marker parser
-- ===================================================================

/-- Character class of the JavaScript regex escape \s (also the set of
characters removed by String.prototype.trim): space, tab, LF, VT, FF, CR,
NBSP, and the Unicode space separators U+1680, U+2000..U+200A, U+2028,
U+2029, U+202F, U+205F, U+3000, U+FEFF. -/
def jsWhitespace (c : Char) : Bool :=
  let n := c.toNat
  n == 32 || n == 9 || n == 10 || n == 11 || n == 12 || n == 13 ||
  n == 0xa0 || n == 0x1680 || (0x2000 ≤ n && n ≤ 0x200a) ||
  n == 0x2028 || n == 0x2029 || n == 0x202f || n == 0x205f ||
  n == 0x3000 || n == 0xfeff

/-- Embedding of the alternation (#+\s|[-*]\s|\d+\.\s) of
OUTLINER_MARKER_REGEX, matched at the start of `cs`.  The three branches
begin with disjoint character sets (#, - or *, digit), and in each branch
the greedy repetition consumes characters that can never satisfy the
following atom, so the backtracking regex engine is equivalent to this
deterministic single pass.  Returns the matched substring. -/
def matchAlternation (cs : List Char) : Option (List Char) :=
  match cs with
  | [] => none
  | c :: rest =>
      if c == '#' then
        match cs.dropWhile (fun x => x == '#') with
        | c2 :: _ =>
            if jsWhitespace c2 then
              some (cs.takeWhile (fun x => x == '#') ++ [c2])
            else none
        | [] => none
      else if c == '-' || c == '*' then
        match rest with
        | c2 :: _ => if jsWhitespace c2 then some ([c, c2]) else none
        | [] => none
      else if c.isDigit then
        match cs.dropWhile Char.isDigit with
        | c2 :: c3 :: _ =>
            if c2 == '.' && jsWhitespace c3 then
              some (cs.takeWhile Char.isDigit ++ [c2, c3])
            else none
        | _ => none
      else none

/-- Embedding of `lineContent.match(OUTLINER_MARKER_REGEX)`, i.e. of the
full regex /^\s*(#+\s|[-*]\s|\d+\.\s)/ anchored at the start of the line.
When the regex matches, the source uses markerMatch[0], the whole match
including the leading \s* run; this function returns exactly that
substring.  (The \s* repetition is greedy, and since every alternation
branch starts with a non-whitespace character, the greedy run never
overshoots and no backtracking into \s* can succeed.) -/
def matchOutlinerMarker (cs : List Char) : Option (List Char) :=
  (matchAlternation (cs.dropWhile jsWhitespace)).map
    (fun m => cs.takeWhile jsWhitespace ++ m)

-- Specification-side marker predicates.  Two families: the `Space`
-- family transcribes claim C4 literally ("followed by a space" = the
-- space character U+0020), the `Ws` family reads "space" as "whitespace
-- character" (the regex character class \s).

/-- Spec wording, literal: the text begins with one or more '#' followed
by a space character. -/
def headingMarkSpace (cs : List Char) : Bool :=
  !(cs.takeWhile (fun x => x == '#')).isEmpty &&
    (match cs.dropWhile (fun x => x == '#') with
     | c2 :: _ => c2 == ' '
     | [] => false)

/-- Spec wording, literal: the text begins with '-' or '*' followed by a
space character. -/
def bulletMarkSpace (cs : List Char) : Bool :=
  match cs with
  | c :: c2 :: _ => (c == '-' || c == '*') && c2 == ' '
  | _ => false

/-- Spec wording, literal: the text begins with one or more digits, then
'.', then a space character. -/
def orderedMarkSpace (cs : List Char) : Bool :=
  !(cs.takeWhile Char.isDigit).isEmpty &&
    (match cs.dropWhile Char.isDigit with
     | c2 :: c3 :: _ => c2 == '.' && c3 == ' '
     | _ => false)

/-- Claim C4 as stated: after optional leading whitespace, the line
begins with a heading, bullet or ordered-list mark whose trailing
delimiter is a space character. -/
def specMarkerSpace (cs : List Char) : Bool :=
  let rest := cs.dropWhile jsWhitespace
  headingMarkSpace rest || bulletMarkSpace rest || orderedMarkSpace rest

/-- Amended wording: one or more '#' followed by a whitespace character. -/
def headingMarkWs (cs : List Char) : Bool :=
  !(cs.takeWhile (fun x => x == '#')).isEmpty &&
    (match cs.dropWhile (fun x => x == '#') with
     | c2 :: _ => jsWhitespace c2
     | [] => false)

/-- Amended wording: '-' or '*' followed by a whitespace character. -/
def bulletMarkWs (cs : List Char) : Bool :=
  match cs with
  | c :: c2 :: _ => (c == '-' || c == '*') && jsWhitespace c2
  | _ => false

/-- Amended wording: one or more digits, then '.', then a whitespace
character. -/
def orderedMarkWs (cs : List Char) : Bool :=
  !(cs.takeWhile Char.isDigit).isEmpty &&
    (match cs.dropWhile Char.isDigit with
     | c2 :: c3 :: _ => c2 == '.' && jsWhitespace c3
     | _ => false)

/-- Amended claim C4: after optional leading whitespace, the line begins
with a heading, bullet or ordered-list mark whose trailing delimiter is
any whitespace character. -/
def specMarkerWs (cs : List Char) : Bool :=
  let rest := cs.dropWhile jsWhitespace
  headingMarkWs rest || bulletMarkWs rest || orderedMarkWs rest

/-- Embedding of JavaScript String.prototype.trim: remove leading and
trailing whitespace. -/
def jsTrim (cs : List Char) : List Char :=
  ((cs.dropWhile jsWhitespace).reverse.dropWhile jsWhitespace).reverse

-- ===================================================================
-- Editor commands built on the marker parser
-- ===================================================================

/-- State of the current line as the empty-except-marker command sees it:
the line text and the cursor column (the `ch` field of the editor cursor
on that line). -/
structure LineState where
  text : List Char
  cursorCh : Nat
deriving Repr, DecidableEq

/-- Embedding of the editorCallback of the command
`empty-current-line-content-except-marker` (src/main.ts:513-535), acting
on the current line.  The source compares the trimmed line with the
trimmed marker (`lineContent.trim() === marker.trim()`) to decide the
do-nothing case; an early return leaves both line text and cursor
untouched. -/
def emptyCurrentLineContentExceptMarker (ls : LineState) : LineState :=
  match matchOutlinerMarker ls.text with
  | some marker =>
      if jsTrim ls.text = jsTrim marker then ls
      else { text := marker, cursorCh := marker.length }
  | none => { text := [], cursorCh := 0 }

/-- Column at which the select command starts its selection: just after
the marker when one is found, column 0 otherwise (src/main.ts:566-571). -/
def markerStartCh (cs : List Char) : Nat :=
  match matchOutlinerMarker cs with
  | some m => m.length
  | none => 0

/-- Editor state as the select-or-cancel command sees it: the current
line's text and number, the cursor column, and the active selection, if
any, as a pair of (line, ch) positions whose second component is the
selection's end point (what `editor.getCursor('to')` returns). -/
structure EditorSelState where
  lineText : List Char
  curLine : Nat
  cursorCh : Nat
  sel : Option ((Nat × Nat) × (Nat × Nat))
deriving Repr, DecidableEq

/-- Embedding of the editorCallback of the command
`select-current-line-or-cancel` (src/main.ts:557-577).  A host
`setCursor` call collapses any selection, modelled by `sel := none`
together with moving the cursor; `setSelection(from, to)` installs the
given selection. -/
def selectCurrentLineOrCancel (e : EditorSelState) : EditorSelState :=
  match e.sel with
  | some ft =>
      { e with sel := none, curLine := ft.2.1, cursorCh := ft.2.2 }
  | none =>
      { e with sel := some ((e.curLine, markerStartCh e.lineText),
                            (e.curLine, e.lineText.length)) }

-- ===================================================================
-- Settings
-- ===================================================================

/-- Embedding of interface EditHelperPluginSettings (src/main.ts:446-448).
The slider produces integer millisecond values in 0..60000, embedded as
Nat. -/
structure EditHelperPluginSettings where
  idleTimeoutMs : Nat
deriving Repr, DecidableEq

/-- Embedding of DEFAULT_SETTINGS (src/main.ts:450-452). -/
def DEFAULT_SETTINGS : EditHelperPluginSettings :=
  { idleTimeoutMs := 60000 }

/-- Persisted data as loadData() returns it: either nothing at all
(missing data file, i.e. null) or an object in which each settings field
may be present or absent. -/
structure LoadedData where
  idleTimeoutMs : Option Nat
deriving Repr, DecidableEq

/-- Embedding of loadSettings (src/main.ts:602-604):
`Object.assign({}, DEFAULT_SETTINGS, await this.loadData())`, a shallow
merge in which a field present in the loaded data overrides the default
and an absent field keeps its DEFAULT_SETTINGS value. -/
def loadSettings (d : Option LoadedData) : EditHelperPluginSettings :=
  match d with
  | none => DEFAULT_SETTINGS
  | some ld =>
      match ld.idleTimeoutMs with
      | some v => { idleTimeoutMs := v }
      | none => DEFAULT_SETTINGS

-- ===================================================================
-- Idle scheduler
-- ===================================================================

/-- Model of the browser timer table.  `window.setTimeout` returns a
fresh positive integer id and records a one-shot timer; `active` lists
the currently pending timers as (id, absolute fire deadline) pairs.  In
the source the only callback ever passed to window.setTimeout is
`this.scrollActiveLineToCenter` (src/main.ts:626), so a timer firing is
an invocation of the centering callback and the model needs no callback
field. -/
structure TimerSys where
  nextId : Nat
  active : List (Nat × Nat)
deriving Repr, DecidableEq

/-- Model of `window.clearTimeout(id)`: remove the timer with this id,
if still pending (a no-op on an id that already fired). -/
def windowClearTimeout (ts : TimerSys) (id : Nat) : TimerSys :=
  { nextId := ts.nextId, active := ts.active.filter (fun p => p.1 != id) }

/-- State of one EditHelperPlugin instance: the two mutable fields
`autoCenterEnabled` and `idleTimeout` (src/main.ts:499-500), the loaded
`settings.idleTimeoutMs`, and the browser timer table.  `idleTimeout` is
`none` for the JavaScript null; browser timer ids are positive, so the
falsy test `if (this.idleTimeout)` is exactly the none/some distinction. -/
structure PluginState where
  autoCenterEnabled : Bool
  idleTimeoutMs : Nat
  idleTimeout : Option Nat
  timers : TimerSys
deriving Repr, DecidableEq

/-- Embedding of the guard `if (this.idleTimeout) window.clearTimeout(this.idleTimeout)`
shared by resetIdleTimer (src/main.ts:622-624) and onunload
(src/main.ts:597-599).  Note that it does not null the `idleTimeout`
field itself. -/
def clearPending (s : PluginState) : PluginState :=
  match s.idleTimeout with
  | some id => { s with timers := windowClearTimeout s.timers id }
  | none => s

/-- Embedding of resetIdleTimer (src/main.ts:621-630): clear the pending
timer if the field is set, then, if `autoCenterEnabled` and
`settings.idleTimeoutMs > 0`, schedule a fresh one-shot timer for
idleTimeoutMs from now (storing its id), else null the field. -/
def resetIdleTimer (s : PluginState) (now : Nat) : PluginState :=
  let s1 := clearPending s
  if s1.autoCenterEnabled = true ∧ 0 < s1.idleTimeoutMs then
    { s1 with idleTimeout := some s1.timers.nextId,
              timers := { nextId := s1.timers.nextId + 1,
                          active := s1.timers.active ++
                            [(s1.timers.nextId, now + s1.idleTimeoutMs)] } }
  else
    { s1 with idleTimeout := none }

/-- Embedding of the `toggle-auto-center-on-idle` command callback
(src/main.ts:584-588): flip the flag, then resetIdleTimer.  (The Notice
is a UI side effect with no bearing on the scheduler state.) -/
def toggleAutoCenter (s : PluginState) (now : Nat) : PluginState :=
  resetIdleTimer { s with autoCenterEnabled := !s.autoCenterEnabled } now

/-- Embedding of the settings slider onChange (src/main.ts:658-662):
store the new value, save, then resetIdleTimer. -/
def settingsSliderChange (s : PluginState) (v : Nat) (now : Nat) : PluginState :=
  resetIdleTimer { s with idleTimeoutMs := v } now

/-- Embedding of onunload (src/main.ts:596-600): clear the pending timer
if the field is set. -/
def onunload (s : PluginState) : PluginState :=
  clearPending s

/-- Operations that can act on the scheduler state, each occurring at a
point in time. -/
inductive SchedEvent where
  | reset
  | toggle
  | settingsChange (v : Nat)
  | unload
deriving Repr, DecidableEq

/-- Dispatch of one scheduler operation at time `now`. -/
def stepEvent (s : PluginState) (now : Nat) (e : SchedEvent) : PluginState :=
  match e with
  | .reset => resetIdleTimer s now
  | .toggle => toggleAutoCenter s now
  | .settingsChange v => settingsSliderChange s v now
  | .unload => onunload s

/-- Passage of time up to (but not including) instant `now`: every
pending timer whose deadline lies strictly before `now` fires, is
consumed, and its firing time is reported.  The stale id in the
`idleTimeout` field is deliberately left in place, as in the browser. -/
def fireDue (s : PluginState) (now : Nat) : PluginState × List Nat :=
  ({ s with timers := { nextId := s.timers.nextId,
                        active := s.timers.active.filter
                          (fun p => !decide (p.2 < now)) } },
   (s.timers.active.filter (fun p => decide (p.2 < now))).map (fun p => p.2))

/-- Execution of a time-ordered trace of scheduler operations: before
each operation the timers due strictly before it fire; after the last
operation every still-pending timer eventually fires at its deadline.
Returns the final state and the list of centering-callback firing
times. -/
def run (s : PluginState) (events : List (Nat × SchedEvent)) :
    PluginState × List Nat :=
  match events with
  | [] =>
      ({ s with timers := { nextId := s.timers.nextId, active := [] } },
       s.timers.active.map (fun p => p.2))
  | (t, e) :: rest =>
      let f := fireDue s t
      let r := run (stepEvent f.1 t e) rest
      (r.1, f.2 ++ r.2)

/-- Plugin state right after construction and loadSettings: field
initializers give idleTimeout = null and autoCenterEnabled = true
(src/main.ts:499-500); no browser timer is pending and ids start at 1. -/
def initialPluginState (d : Nat) : PluginState :=
  { autoCenterEnabled := true, idleTimeoutMs := d,
    idleTimeout := none, timers := { nextId := 1, active := [] } }

/-- Timer-table invariant: when the `idleTimeout` field is null no timer
is pending; when it stores an id, at most one timer is pending and it
carries exactly that id. -/
def timerInvB (s : PluginState) : Bool :=
  match s.idleTimeout with
  | none => s.timers.active.isEmpty
  | some id => s.timers.active.isEmpty ||
               s.timers.active.map Prod.fst == [id]

/-- Scheduling-guard invariant: a timer is pending only while the
feature is enabled and the configured timeout is positive. -/
def schedGuardB (s : PluginState) : Bool :=
  s.timers.active.isEmpty ||
    (s.autoCenterEnabled && decide (0 < s.idleTimeoutMs))

/-- Combined scheduler invariant. -/
def schedInv (s : PluginState) : Prop :=
  timerInvB s = true ∧ schedGuardB s = true

instance (s : PluginState) : Decidable (schedInv s) :=
  inferInstanceAs (Decidable (timerInvB s = true ∧ schedGuardB s = true))

-- ===================================================================
-- Activity-signal registrations (onload)
-- ===================================================================

/-- The activity signals named by the spec: document edits, active-view
changes, key presses, pointer presses, pointer moves. -/
inductive ActivitySignal where
  | editorChange
  | activeLeafChange
  | keydown
  | mousedown
  | mousemove
deriving Repr, DecidableEq

/-- How a registered handler invokes resetIdleTimer: directly, or
wrapped in the obsidian debounce helper with the given window. -/
inductive HandlerKind where
  | resetDirect
  | resetDebounced (windowMs : Nat)
deriving Repr, DecidableEq

/-- One activity-signal registration performed in onload. -/
structure Registration where
  signal : ActivitySignal
  handler : HandlerKind
deriving Repr, DecidableEq

/-- Embedding of PLUGIN_CONSTANTS.DEBOUNCE_DELAY_MS (src/main.ts:457). -/
def DEBOUNCE_DELAY_MS : Nat := 500

/-- Activity registrations of the current version's onload
(src/main.ts:591): a single registration, the workspace editor-change
event with resetIdleTimer wrapped in debounce(·, DEBOUNCE_DELAY_MS, true). -/
def onloadRegistrations : List Registration :=
  [{ signal := .editorChange, handler := .resetDebounced DEBOUNCE_DELAY_MS }]

/-- Activity registrations of the earlier 0.1.1 version's onload
(src/main.ts:155-160 of the 0.1.1 chunk): editor-change,
active-leaf-change, keydown and mousedown call resetIdleTimer directly,
and mousemove is wrapped in debounce(·, DEBOUNCE_DELAY_MS, true). -/
def onloadRegistrationsV011 : List Registration :=
  [{ signal := .editorChange, handler := .resetDirect },
   { signal := .activeLeafChange, handler := .resetDirect },
   { signal := .keydown, handler := .resetDirect },
   { signal := .mousedown, handler := .resetDirect },
   { signal := .mousemove, handler := .resetDebounced DEBOUNCE_DELAY_MS }]

/-- Test of whether a handler coalesces (is debounce-wrapped). -/
def isDebounced : HandlerKind → Bool
  | .resetDirect => false
  | .resetDebounced _ => true

/-- Modelled from the spec: the obsidian `debounce` helper is imported
library code, not part of src; the spec describes its effect as a
fixed-window filter under which the wrapped function runs at most once
per coalescing window.  Given the window and the (time-ordered) raw call
times, `coalesceFrom` keeps a call only when at least a full window has
passed since the last kept call, whose time is `last`. -/
def coalesceFrom (w last : Nat) : List Nat → List Nat
  | [] => []
  | t :: ts =>
      if last + w ≤ t then t :: coalesceFrom w t ts
      else coalesceFrom w last ts

/-- Modelled from the spec: the times at which a debounce-wrapped
handler actually invokes resetIdleTimer, given the raw signal times.
The first signal always gets through; later ones are coalesced by
`coalesceFrom`. -/
def coalesceWindow (w : Nat) : List Nat → List Nat
  | [] => []
  | t :: ts => t :: coalesceFrom w t ts

-- ===================================================================
-- Helper lemmas: scheduler state facts
-- ===================================================================

theorem clearPending_enabled (s : PluginState) :
    (clearPending s).autoCenterEnabled = s.autoCenterEnabled := by
  cases hc : s.idleTimeout <;> simp [clearPending, hc]

theorem clearPending_timeoutMs (s : PluginState) :
    (clearPending s).idleTimeoutMs = s.idleTimeoutMs := by
  cases hc : s.idleTimeout <;> simp [clearPending, hc]

theorem clearPending_nextId (s : PluginState) :
    (clearPending s).timers.nextId = s.timers.nextId := by
  cases hc : s.idleTimeout <;> simp [clearPending, hc, windowClearTimeout]

theorem clearPending_field (s : PluginState) :
    (clearPending s).idleTimeout = s.idleTimeout := by
  cases hc : s.idleTimeout <;> simp [clearPending, hc]

/-- Under the timer-table invariant, the clearTimeout guard removes every
pending timer. -/
theorem clearPending_active (s : PluginState) (h : timerInvB s = true) :
    (clearPending s).timers.active = [] := by
  cases hc : s.idleTimeout with
  | none =>
      simp only [timerInvB, hc, List.isEmpty_iff] at h
      simp [clearPending, hc, h]
  | some id =>
      simp only [timerInvB, hc, Bool.or_eq_true, List.isEmpty_iff,
        beq_iff_eq] at h
      rcases h with h | h
      · simp [clearPending, hc, windowClearTimeout, h]
      · cases ha : s.timers.active with
        | nil => simp [clearPending, hc, windowClearTimeout, ha]
        | cons p rest =>
            rw [ha] at h
            simp only [List.map_cons, List.cons.injEq] at h
            obtain ⟨hp, hrest⟩ := h
            have hrest' : rest = [] := List.map_eq_nil_iff.mp hrest
            simp [clearPending, hc, windowClearTimeout, ha, hrest', hp,
              List.filter_cons]

/-- Shape of resetIdleTimer when the feature is enabled and the timeout
positive: exactly one fresh timer is pending, due idleTimeoutMs from
now, and its id is stored. -/
theorem resetIdleTimer_pos (s : PluginState) (now : Nat)
    (h : timerInvB s = true)
    (hc : s.autoCenterEnabled = true ∧ 0 < s.idleTimeoutMs) :
    resetIdleTimer s now =
      { autoCenterEnabled := s.autoCenterEnabled,
        idleTimeoutMs := s.idleTimeoutMs,
        idleTimeout := some s.timers.nextId,
        timers := { nextId := s.timers.nextId + 1,
                    active := [(s.timers.nextId, now + s.idleTimeoutMs)] } } := by
  simp only [resetIdleTimer, clearPending_enabled, clearPending_timeoutMs,
    clearPending_nextId, clearPending_active s h]
  rw [if_pos hc]
  simp

/-- Shape of resetIdleTimer when the feature is disabled or the timeout
is zero: no timer is pending and the field is null. -/
theorem resetIdleTimer_neg (s : PluginState) (now : Nat)
    (h : timerInvB s = true)
    (hc : ¬ (s.autoCenterEnabled = true ∧ 0 < s.idleTimeoutMs)) :
    resetIdleTimer s now =
      { autoCenterEnabled := s.autoCenterEnabled,
        idleTimeoutMs := s.idleTimeoutMs,
        idleTimeout := none,
        timers := { nextId := s.timers.nextId, active := [] } } := by
  have ht : (clearPending s).timers = { nextId := s.timers.nextId, active := [] } := by
    have h1 := clearPending_nextId s
    have h2 := clearPending_active s h
    cases htm : (clearPending s).timers with
    | mk n a => rw [htm] at h1 h2; simp_all
  simp only [resetIdleTimer, clearPending_enabled, clearPending_timeoutMs, ht]
  rw [if_neg hc]

/-- An empty timer table satisfies the timer-table invariant regardless
of the stored id. -/
theorem timerInvB_of_active_nil (s : PluginState)
    (h : s.timers.active = []) : timerInvB s = true := by
  cases hc : s.idleTimeout <;> simp [timerInvB, hc, h]

/-- resetIdleTimer preserves the scheduler invariant (it needs only the
timer-table part of it). -/
theorem schedInv_resetIdleTimer (s : PluginState) (now : Nat)
    (h : timerInvB s = true) : schedInv (resetIdleTimer s now) := by
  by_cases hc : s.autoCenterEnabled = true ∧ 0 < s.idleTimeoutMs
  · rw [resetIdleTimer_pos s now h hc]
    refine ⟨by simp [timerInvB], ?_⟩
    simp [schedGuardB, hc.1, hc.2]
  · rw [resetIdleTimer_neg s now h hc]
    exact ⟨by simp [timerInvB], by simp [schedGuardB]⟩

/-- Every scheduler operation preserves the invariant. -/
theorem schedInv_stepEvent (s : PluginState) (now : Nat) (e : SchedEvent)
    (h : schedInv s) : schedInv (stepEvent s now e) := by
  obtain ⟨h1, _⟩ := h
  cases e with
  | reset => exact schedInv_resetIdleTimer s now h1
  | toggle =>
      exact schedInv_resetIdleTimer { s with autoCenterEnabled := !s.autoCenterEnabled } now h1
  | settingsChange v =>
      exact schedInv_resetIdleTimer { s with idleTimeoutMs := v } now h1
  | unload =>
      have ha := clearPending_active s h1
      exact ⟨timerInvB_of_active_nil _ ha,
             by simp [stepEvent, onunload, schedGuardB, ha]⟩

/-- Time passing (timers firing) preserves the invariant. -/
theorem schedInv_fireDue (s : PluginState) (now : Nat)
    (h : schedInv s) : schedInv (fireDue s now).1 := by
  obtain ⟨h1, h2⟩ := h
  cases ha : s.timers.active with
  | nil =>
      constructor
      · exact timerInvB_of_active_nil _ (by simp [fireDue, ha])
      · simp [schedGuardB, fireDue, ha]
  | cons p rest =>
      -- under the timer invariant there is exactly one pending timer
      cases hc : s.idleTimeout with
      | none => simp [timerInvB, hc, List.isEmpty_iff, ha] at h1
      | some id =>
          simp only [timerInvB, hc, Bool.or_eq_true, List.isEmpty_iff,
            beq_iff_eq, ha] at h1
          rcases h1 with h1 | h1
          · exact absurd h1 (by simp)
          · simp only [List.map_cons, List.cons.injEq] at h1
            obtain ⟨hp, hrest⟩ := h1
            have hrest' : rest = [] := List.map_eq_nil_iff.mp hrest
            subst hrest'
            constructor
            · -- one timer either fires (empty table) or stays (same id)
              by_cases hdue : p.2 < now
              · exact timerInvB_of_active_nil _
                  (by simp [fireDue, ha, List.filter_cons, hdue])
              · simp [timerInvB, fireDue, hc, ha, List.filter_cons, hdue, hp]
            · by_cases hdue : p.2 < now
              · simp [schedGuardB, fireDue, ha, List.filter_cons, hdue]
              · have hg : s.autoCenterEnabled = true ∧ 0 < s.idleTimeoutMs := by
                  simp only [schedGuardB, ha, List.isEmpty_iff,
                    Bool.or_eq_true, Bool.and_eq_true, decide_eq_true_eq] at h2
                  rcases h2 with h2 | h2
                  · exact absurd h2 (by simp)
                  · exact h2
                simp [schedGuardB, fireDue, ha, List.filter_cons, hdue,
                  hg.1, hg.2]

/-- The initial state satisfies the invariant for every configured
timeout. -/
theorem schedInv_initial (d : Nat) : schedInv (initialPluginState d) := by
  exact ⟨by simp [timerInvB, initialPluginState],
         by simp [schedGuardB, initialPluginState]⟩

/-- Under the timer-table invariant at most one timer is pending. -/
theorem schedInv_length_le_one (s : PluginState) (h : timerInvB s = true) :
    s.timers.active.length ≤ 1 := by
  cases hc : s.idleTimeout with
  | none =>
      simp only [timerInvB, hc, List.isEmpty_iff] at h
      simp [h]
  | some id =>
      simp only [timerInvB, hc, Bool.or_eq_true, List.isEmpty_iff,
        beq_iff_eq] at h
      rcases h with h | h
      · simp [h]
      · have := congrArg List.length h
        simpa using Nat.le_of_eq this

/-- Core debounce induction: from a state holding exactly one pending
timer due `t0 + idleTimeoutMs`, a chain of reset operations each
arriving strictly within idleTimeoutMs of the previous one produces
exactly one firing, at the last reset time plus idleTimeoutMs. -/
theorem run_resets (ts : List Nat) :
    ∀ (s : PluginState) (t0 j : Nat),
      s.autoCenterEnabled = true → 0 < s.idleTimeoutMs →
      s.idleTimeout = some j →
      s.timers.active = [(j, t0 + s.idleTimeoutMs)] →
      List.Chain (fun a b => b < a + s.idleTimeoutMs) t0 ts →
      (run s (ts.map (fun t => (t, SchedEvent.reset)))).2
        = [ts.getLastD t0 + s.idleTimeoutMs] := by
  induction ts with
  | nil =>
      intro s t0 j _ _ _ hact _
      simp [run, hact, List.getLastD]
  | cons t1 rest ih =>
      intro s t0 j hen hd hid hact hchain
      cases hchain with
      | cons hlt hchain =>
        have hnot : ¬ (t0 + s.idleTimeoutMs < t1) := by omega
        have hfire1 : (fireDue s t1).1 =
            { s with timers := { nextId := s.timers.nextId,
                                 active := [(j, t0 + s.idleTimeoutMs)] } } := by
          simp [fireDue, hact, List.filter_cons, hnot]
        have hfire2 : (fireDue s t1).2 = [] := by
          simp [fireDue, hact, List.filter_cons, hnot]
        have h1inv : timerInvB (fireDue s t1).1 = true := by
          rw [hfire1]; simp [timerInvB, hid]
        have hcond : (fireDue s t1).1.autoCenterEnabled = true ∧
            0 < (fireDue s t1).1.idleTimeoutMs := by
          rw [hfire1]; exact ⟨hen, hd⟩
        have hreset := resetIdleTimer_pos (fireDue s t1).1 t1 h1inv hcond
        rw [hfire1] at hreset
        simp only [List.map_cons, run, stepEvent]
        rw [hfire2, List.nil_append, hfire1, hreset]
        have happ := ih
          { autoCenterEnabled := s.autoCenterEnabled,
            idleTimeoutMs := s.idleTimeoutMs,
            idleTimeout := some s.timers.nextId,
            timers := { nextId := s.timers.nextId + 1,
                        active := [(s.timers.nextId, t1 + s.idleTimeoutMs)] } }
          t1 s.timers.nextId hen hd rfl rfl hchain
        rw [happ, List.getLastD_cons]

/-- From a disabled state with no pending timer, no trace of operations
that contains no toggle ever produces a firing. -/
theorem run_disabled_no_fires (events : List (Nat × SchedEvent)) :
    ∀ (s : PluginState),
      s.timers.active = [] → s.autoCenterEnabled = false →
      (∀ te ∈ events, te.2 ≠ SchedEvent.toggle) →
      (run s events).2 = [] := by
  induction events with
  | nil => intro s hact _ _; simp [run, hact]
  | cons te rest ih =>
      obtain ⟨t, e⟩ := te
      intro s hact hen hnt
      have hfire1 : (fireDue s t).1 =
          { s with timers := { nextId := s.timers.nextId, active := [] } } := by
        simp [fireDue, hact]
      have hfire2 : (fireDue s t).2 = [] := by simp [fireDue, hact]
      have hnt' : ∀ te ∈ rest, te.2 ≠ SchedEvent.toggle :=
        fun te hte => hnt te (List.mem_cons_of_mem _ hte)
      simp only [run]
      rw [hfire2, List.nil_append, hfire1]
      cases e with
      | reset =>
          have hneg := resetIdleTimer_neg
            { s with timers := { nextId := s.timers.nextId, active := [] } } t
            (timerInvB_of_active_nil _ rfl)
            (by simp [hen])
          simp only [stepEvent]
          rw [hneg]
          exact ih _ rfl hen hnt'
      | toggle => exact absurd rfl (hnt (t, SchedEvent.toggle) (by simp))
      | settingsChange v =>
          have hneg := resetIdleTimer_neg
            { s with idleTimeoutMs := v,
                     timers := { nextId := s.timers.nextId, active := [] } } t
            (timerInvB_of_active_nil _ rfl)
            (by simp [hen])
          simp only [stepEvent, settingsSliderChange]
          rw [hneg]
          exact ih _ rfl hen hnt'
      | unload =>
          have hca := clearPending_active
            { s with timers := { nextId := s.timers.nextId, active := [] } }
            (timerInvB_of_active_nil _ rfl)
          have hce := clearPending_enabled
            { s with timers := { nextId := s.timers.nextId, active := [] } }
          simp only [stepEvent, onunload]
          exact ih _ hca (by rw [hce]; exact hen) hnt'

-- ===================================================================
-- Helper lemmas: marker parser
-- ===================================================================

theorem isSome_optionMap {α β : Type} (f : α → β) (o : Option α) :
    (o.map f).isSome = o.isSome := by
  cases o <;> rfl

/-- The regex alternation succeeds exactly on the texts described by the
three whitespace-delimited mark predicates. -/
theorem matchAlternation_isSome (cs : List Char) :
    (matchAlternation cs).isSome
      = (headingMarkWs cs || bulletMarkWs cs || orderedMarkWs cs) := by
  cases cs with
  | nil => decide
  | cons c t =>
      by_cases hc : c = '#'
      · subst hc
        have hb : bulletMarkWs ('#' :: t) = false := by
          cases t <;> simp +decide [bulletMarkWs]
        have ho : orderedMarkWs ('#' :: t) = false := by
          simp +decide [orderedMarkWs, List.takeWhile_cons]
        rw [hb, ho]
        simp only [Bool.or_false]
        cases hds : t.dropWhile (fun x => x == '#') with
        | nil =>
            simp +decide [matchAlternation, headingMarkWs,
              List.takeWhile_cons, List.dropWhile_cons, hds]
        | cons a l =>
            by_cases hw : jsWhitespace a <;>
              simp +decide [matchAlternation, headingMarkWs,
                List.takeWhile_cons, List.dropWhile_cons, hds, hw]
      · have hch : (c == '#') = false := beq_eq_false_iff_ne.mpr hc
        by_cases hbc : c = '-' ∨ c = '*'
        · have hcb : (c == '-' || c == '*') = true := by
            rcases hbc with h | h <;> subst h <;> decide
          have hcd : c.isDigit = false := by
            rcases hbc with h | h <;> subst h <;> decide
          have hh : headingMarkWs (c :: t) = false := by
            simp [headingMarkWs, List.takeWhile_cons, hch]
          have ho : orderedMarkWs (c :: t) = false := by
            simp [orderedMarkWs, List.takeWhile_cons, hcd]
          rw [hh, ho]
          simp only [Bool.false_or, Bool.or_false]
          cases t with
          | nil => simp [matchAlternation, bulletMarkWs, hch, hcb]
          | cons c2 t2 =>
              by_cases hw : jsWhitespace c2 <;>
                simp [matchAlternation, bulletMarkWs, hch, hcb, hw]
        · have hcb : (c == '-' || c == '*') = false := by
            rcases not_or.mp hbc with ⟨h1, h2⟩
            rw [Bool.or_eq_false_iff]
            exact ⟨beq_eq_false_iff_ne.mpr h1, beq_eq_false_iff_ne.mpr h2⟩
          have hh : headingMarkWs (c :: t) = false := by
            simp [headingMarkWs, List.takeWhile_cons, hch]
          have hb : bulletMarkWs (c :: t) = false := by
            cases t <;> simp [bulletMarkWs, hcb]
          rw [hh, hb]
          simp only [Bool.false_or]
          by_cases hcd : c.isDigit
          · cases hds : t.dropWhile Char.isDigit with
            | nil =>
                simp [matchAlternation, orderedMarkWs, hch, hcb, hcd,
                  List.takeWhile_cons, List.dropWhile_cons, hds]
            | cons a l =>
                cases l with
                | nil =>
                    simp [matchAlternation, orderedMarkWs, hch, hcb, hcd,
                      List.takeWhile_cons, List.dropWhile_cons, hds]
                | cons a2 l2 =>
                    by_cases hdot : (a == '.') = true <;>
                      by_cases hw : jsWhitespace a2 <;>
                        simp [matchAlternation, orderedMarkWs, hch, hcb, hcd,
                          List.takeWhile_cons, List.dropWhile_cons, hds,
                          hdot, hw]
          · have hcd2 : c.isDigit = false := by simpa using hcd
            simp [matchAlternation, orderedMarkWs, hch, hcb, hcd2,
              List.takeWhile_cons]

/-- A successful alternation match is an initial segment of its input. -/
theorem matchAlternation_append (cs m : List Char)
    (h : matchAlternation cs = some m) : ∃ tail, cs = m ++ tail := by
  cases cs with
  | nil => simp [matchAlternation] at h
  | cons c t =>
      by_cases hc : (c == '#') = true
      · have hsplit := List.takeWhile_append_dropWhile (fun x => x == '#') (c :: t)
        cases hds : (c :: t).dropWhile (fun x => x == '#') with
        | nil => simp [matchAlternation, hc, hds] at h
        | cons a l =>
            rw [hds] at hsplit
            by_cases hw : jsWhitespace a
            · have hm : (c :: t).takeWhile (fun x => x == '#') ++ [a] = m := by
                simpa [matchAlternation, hc, hds, hw] using h
              refine ⟨l, ?_⟩
              rw [← hm, List.append_assoc]
              simp only [List.singleton_append]
              exact hsplit.symm
            · simp [matchAlternation, hc, hds, hw] at h
      · by_cases hcb : (c == '-' || c == '*') = true
        · cases t with
          | nil => simp [matchAlternation, hc, hcb] at h
          | cons c2 t2 =>
              by_cases hw : jsWhitespace c2
              · have hm : [c, c2] = m := by
                  simpa [matchAlternation, hc, hcb, hw] using h
                exact ⟨t2, by rw [← hm]; rfl⟩
              · simp [matchAlternation, hc, hcb, hw] at h
        · by_cases hcd : c.isDigit
          · have hsplit := List.takeWhile_append_dropWhile Char.isDigit (c :: t)
            cases hds : (c :: t).dropWhile Char.isDigit with
            | nil => simp [matchAlternation, hc, hcb, hcd, hds] at h
            | cons a l =>
                cases l with
                | nil => simp [matchAlternation, hc, hcb, hcd, hds] at h
                | cons a2 l2 =>
                    rw [hds] at hsplit
                    by_cases hda : (a == '.' && jsWhitespace a2) = true
                    · have hm : (c :: t).takeWhile Char.isDigit ++ [a, a2] = m := by
                        simpa [matchAlternation, hc, hcb, hcd, hds, hda] using h
                      refine ⟨l2, ?_⟩
                      rw [← hm, List.append_assoc]
                      simp only [List.cons_append, List.singleton_append]
                      exact hsplit.symm
                    · simp [matchAlternation, hc, hcb, hcd, hds, hda] at h
          · simp [matchAlternation, hc, hcb, hcd] at h

/-- Decomposition of a successful full-regex match: the returned
substring is the leading whitespace run followed by the alternation
match, and it is an initial segment of the line. -/
theorem matchOutlinerMarker_parts (cs m : List Char)
    (h : matchOutlinerMarker cs = some m) :
    ∃ core tail,
      matchAlternation (cs.dropWhile jsWhitespace) = some core ∧
      m = cs.takeWhile jsWhitespace ++ core ∧
      cs = m ++ tail := by
  cases hma : matchAlternation (cs.dropWhile jsWhitespace) with
  | none => simp [matchOutlinerMarker, hma] at h
  | some core =>
      have hm : m = cs.takeWhile jsWhitespace ++ core := by
        have := h
        simp [matchOutlinerMarker, hma] at this
        exact this.symm
      obtain ⟨tail, htail⟩ := matchAlternation_append _ _ hma
      refine ⟨core, tail, rfl, hm, ?_⟩
      rw [hm, List.append_assoc, ← htail, List.takeWhile_append_dropWhile]

/-- Successive accepted call times of the coalescing filter are at least
one full window apart, and all lie at least a window after `last`. -/
theorem coalesceFrom_chain (w : Nat) (ts : List Nat) :
    ∀ last, List.Chain (fun a b => a + w ≤ b) last (coalesceFrom w last ts) := by
  induction ts with
  | nil => intro last; exact List.Chain.nil
  | cons t ts ih =>
      intro last
      by_cases h : last + w ≤ t
      · simp only [coalesceFrom, if_pos h]
        exact List.Chain.cons h (ih t)
      · simp only [coalesceFrom, if_neg h]
        exact ih last

/-- Successive invocation times surviving the coalescing filter are at
least one window apart: the wrapped function runs at most once per
window. -/
theorem coalesceWindow_spaced (w : Nat) (ts : List Nat) :
    List.Chain' (fun a b => a + w ≤ b) (coalesceWindow w ts) := by
  cases ts with
  | nil => simp [coalesceWindow]
  | cons t ts => exact coalesceFrom_chain w ts t

-- ===================================================================
-- Claim theorems
-- ===================================================================

/-- Claim C1: for every scheduler state (satisfying the timer-table
invariant), resetIdleTimer cancels any pending timer and leaves exactly
one fresh one-shot timer due idleTimeoutMs from now (with its id stored)
if and only if autoCenterEnabled holds and settings.idleTimeoutMs > 0;
otherwise it leaves no pending timer; in particular with
idleTimeoutMs = 0 it never schedules one.  (Every timer in the model
fires the centering callback, since the source passes only
scrollActiveLineToCenter to window.setTimeout.) -/
theorem claimC1 (s : PluginState) (now : Nat) (h : timerInvB s = true) :
    ((s.autoCenterEnabled = true ∧ 0 < s.idleTimeoutMs) →
        (resetIdleTimer s now).timers.active
            = [(s.timers.nextId, now + s.idleTimeoutMs)]
          ∧ (resetIdleTimer s now).idleTimeout = some s.timers.nextId)
    ∧ (¬ (s.autoCenterEnabled = true ∧ 0 < s.idleTimeoutMs) →
        (resetIdleTimer s now).timers.active = []
          ∧ (resetIdleTimer s now).idleTimeout = none)
    ∧ (s.idleTimeoutMs = 0 →
        (resetIdleTimer s now).timers.active = []
          ∧ (resetIdleTimer s now).idleTimeout = none) := by
  refine ⟨?_, ?_, ?_⟩
  · intro hc
    rw [resetIdleTimer_pos s now h hc]
    exact ⟨rfl, rfl⟩
  · intro hc
    rw [resetIdleTimer_neg s now h hc]
    exact ⟨rfl, rfl⟩
  · intro h0
    have hc : ¬ (s.autoCenterEnabled = true ∧ 0 < s.idleTimeoutMs) := by
      rintro ⟨_, hpos⟩; omega
    rw [resetIdleTimer_neg s now h hc]
    exact ⟨rfl, rfl⟩

/-- Witness for C1 at two concrete states: an enabled state with a
pending timer (rescheduled) and a state with idleTimeoutMs = 0 (nothing
scheduled). -/
theorem claimC1_witness :
    ((resetIdleTimer ⟨true, 1000, some 1, ⟨2, [(1, 400)]⟩⟩ 500).timers.active
        = [(2, 1500)]
      ∧ (resetIdleTimer ⟨true, 1000, some 1, ⟨2, [(1, 400)]⟩⟩ 500).idleTimeout
        = some 2)
    ∧ ((resetIdleTimer ⟨true, 0, none, ⟨1, []⟩⟩ 7).timers.active = []
      ∧ (resetIdleTimer ⟨true, 0, none, ⟨1, []⟩⟩ 7).idleTimeout = none) :=
  ⟨(claimC1 ⟨true, 1000, some 1, ⟨2, [(1, 400)]⟩⟩ 500 (by decide)).1 (by decide),
   (claimC1 ⟨true, 0, none, ⟨1, []⟩⟩ 7 (by decide)).2.2 rfl⟩

/-- Claim C2 (counterexample): with timeoutMs = 1000, resets at 0 and at
2000 make the centering callback fire twice (at 1000 and at 3000), not
exactly once, and the firing at 1000 precedes the last reset; so the
claim fails for reset sequences with a quiet gap of at least
timeoutMs. -/
theorem claimC2_counterexample :
    (run (initialPluginState 1000)
        [(0, SchedEvent.reset), (2000, SchedEvent.reset)]).2 = [1000, 3000]
    ∧ ((run (initialPluginState 1000)
        [(0, SchedEvent.reset), (2000, SchedEvent.reset)]).2).length ≠ 1
    ∧ 1000 < 2000 := by decide

/-- Claim C2 (amended): for every sequence of resets in which each
subsequent reset arrives strictly within timeoutMs of the previous one,
starting enabled with timeoutMs = d > 0, the centering callback fires
exactly once, exactly at the last reset time plus d (hence at least d
after the last reset and never before it). -/
theorem claimC2_amended (d t0 : Nat) (ts : List Nat) (hd : 0 < d)
    (hchain : List.Chain (fun a b => b < a + d) t0 ts) :
    (run (initialPluginState d)
        ((t0 :: ts).map (fun t => (t, SchedEvent.reset)))).2
      = [ts.getLastD t0 + d] := by
  have hf0 : fireDue (initialPluginState d) t0 = (initialPluginState d, []) := rfl
  have hreset := resetIdleTimer_pos (initialPluginState d) t0 rfl ⟨rfl, hd⟩
  simp only [List.map_cons, run, stepEvent, hf0, List.nil_append]
  rw [hreset]
  exact run_resets ts _ t0 (initialPluginState d).timers.nextId rfl hd rfl rfl hchain

/-- Witness for C2 (amended): the spec's own example, resets at 0 and at
500 with timeoutMs = 1000 produce a single firing at 1500. -/
theorem claimC2_witness :
    (run (initialPluginState 1000)
        ([0, 500].map (fun t => (t, SchedEvent.reset)))).2 = [1500] := by
  have := claimC2_amended 1000 0 [500] (by decide)
    (List.Chain.cons (by decide) List.Chain.nil)
  simpa using this

/-- Claim C3: the centering callback never fires from a state in which
auto-centering is disabled or the configured timeout is zero (first
conjunct: any firing forces enabled and positive timeout); toggling
auto-center off cancels the pending timer and no firing happens on any
further toggle-free trace; and unloading cancels the pending timer so
nothing ever fires afterwards. -/
theorem claimC3 :
    (∀ (s : PluginState) (t : Nat), schedInv s → (fireDue s t).2 ≠ [] →
        s.autoCenterEnabled = true ∧ 0 < s.idleTimeoutMs)
    ∧ (∀ (s : PluginState) (t : Nat) (events : List (Nat × SchedEvent)),
        schedInv s → s.autoCenterEnabled = true →
        (∀ te ∈ events, te.2 ≠ SchedEvent.toggle) →
        (stepEvent s t SchedEvent.toggle).timers.active = []
          ∧ (run (stepEvent s t SchedEvent.toggle) events).2 = [])
    ∧ (∀ (s : PluginState) (t : Nat), schedInv s →
        (stepEvent s t SchedEvent.unload).timers.active = []
          ∧ (run (stepEvent s t SchedEvent.unload) []).2 = []) := by
  refine ⟨?_, ?_, ?_⟩
  · intro s t hinv hne
    have hact : s.timers.active ≠ [] := by
      intro h0
      exact hne (by simp [fireDue, h0])
    have h2 := hinv.2
    simp only [schedGuardB, Bool.or_eq_true, List.isEmpty_iff,
      Bool.and_eq_true, decide_eq_true_eq] at h2
    rcases h2 with h2 | h2
    · exact absurd h2 hact
    · exact h2
  · intro s t events hinv hen hnt
    have hinv' : timerInvB { s with autoCenterEnabled := !s.autoCenterEnabled }
        = true := hinv.1
    have hc : ¬ (({ s with autoCenterEnabled := !s.autoCenterEnabled
        } : PluginState).autoCenterEnabled = true
        ∧ 0 < ({ s with autoCenterEnabled := !s.autoCenterEnabled
        } : PluginState).idleTimeoutMs) := by
      simp [hen]
    have hneg := resetIdleTimer_neg
      { s with autoCenterEnabled := !s.autoCenterEnabled } t hinv' hc
    constructor
    · simp only [stepEvent, toggleAutoCenter]
      rw [hneg]
    · simp only [stepEvent, toggleAutoCenter]
      rw [hneg]
      exact run_disabled_no_fires events _ rfl (by simp [hen]) hnt
  · intro s t hinv
    have ha := clearPending_active s hinv.1
    exact ⟨ha, by simp [stepEvent, onunload, run, ha]⟩

/-- Witness for C3 at a concrete enabled state holding one pending
timer. -/
theorem claimC3_witness :
    ((⟨true, 1000, some 1, ⟨2, [(1, 3)]⟩⟩ : PluginState).autoCenterEnabled = true
      ∧ 0 < (⟨true, 1000, some 1, ⟨2, [(1, 3)]⟩⟩ : PluginState).idleTimeoutMs)
    ∧ ((stepEvent ⟨true, 1000, some 1, ⟨2, [(1, 3)]⟩⟩ 10
          SchedEvent.toggle).timers.active = []
      ∧ (run (stepEvent ⟨true, 1000, some 1, ⟨2, [(1, 3)]⟩⟩ 10
          SchedEvent.toggle) [(100, SchedEvent.reset)]).2 = [])
    ∧ ((stepEvent ⟨true, 1000, some 1, ⟨2, [(1, 3)]⟩⟩ 10
          SchedEvent.unload).timers.active = []
      ∧ (run (stepEvent ⟨true, 1000, some 1, ⟨2, [(1, 3)]⟩⟩ 10
          SchedEvent.unload) []).2 = []) :=
  ⟨claimC3.1 ⟨true, 1000, some 1, ⟨2, [(1, 3)]⟩⟩ 5 (by decide) (by decide),
   claimC3.2.1 ⟨true, 1000, some 1, ⟨2, [(1, 3)]⟩⟩ 10 [(100, SchedEvent.reset)]
     (by decide) rfl (by decide),
   claimC3.2.2 ⟨true, 1000, some 1, ⟨2, [(1, 3)]⟩⟩ 10 (by decide)⟩

/-- Claim C7: at most one pending timer exists per plugin instance at
any time: the strengthened invariant holds in the initial state, is
preserved by every scheduler operation and by timers firing, and
entails that at most one timer is pending. -/
theorem claimC7 :
    (∀ d, schedInv (initialPluginState d))
    ∧ (∀ (s : PluginState) (now : Nat) (e : SchedEvent),
        schedInv s → schedInv (stepEvent s now e))
    ∧ (∀ (s : PluginState) (now : Nat),
        schedInv s → schedInv (fireDue s now).1)
    ∧ (∀ s : PluginState, schedInv s → s.timers.active.length ≤ 1) :=
  ⟨schedInv_initial,
   schedInv_stepEvent,
   schedInv_fireDue,
   fun s h => schedInv_length_le_one s h.1⟩

/-- Witness for C7 at concrete states. -/
theorem claimC7_witness :
    schedInv (initialPluginState 60000)
    ∧ schedInv (stepEvent ⟨true, 1000, some 1, ⟨2, [(1, 50)]⟩⟩ 7 SchedEvent.reset)
    ∧ schedInv (fireDue ⟨true, 1000, some 1, ⟨2, [(1, 50)]⟩⟩ 100).1
    ∧ (⟨true, 1000, some 1, ⟨2, [(1, 50)]⟩⟩ : PluginState).timers.active.length ≤ 1 :=
  ⟨claimC7.1 60000,
   claimC7.2.1 ⟨true, 1000, some 1, ⟨2, [(1, 50)]⟩⟩ 7 SchedEvent.reset (by decide),
   claimC7.2.2.1 ⟨true, 1000, some 1, ⟨2, [(1, 50)]⟩⟩ 100 (by decide),
   claimC7.2.2.2 ⟨true, 1000, some 1, ⟨2, [(1, 50)]⟩⟩ (by decide)⟩

/-- Claim C4 (counterexample): the line consisting of '#', a tab and 'x'
is matched by OUTLINER_MARKER_REGEX (the regex accepts any \s whitespace
after the marker head), yet it does not begin with a heading, bullet or
ordered-list marker followed by a space character, so the claim's
"followed by a space" description is not equivalent to the code. -/
theorem claimC4_counterexample :
    (matchOutlinerMarker "#\tx".toList).isSome = true
    ∧ specMarkerSpace "#\tx".toList = false
    ∧ matchOutlinerMarker "#\tx".toList = some "#\t".toList := by
  decide

/-- Claim C4 (amended): the parser matches exactly when the line begins,
after optional leading whitespace, with one or more '#' followed by a
whitespace character, '-' or '*' followed by a whitespace character, or
one or more digits then '.' then a whitespace character; and every
returned match consists of the leading whitespace run followed by the
marker proper and is an initial segment of the line.  (The parser is a
pure total Lean function by construction.) -/
theorem claimC4_amended :
    (∀ cs : List Char, (matchOutlinerMarker cs).isSome = specMarkerWs cs)
    ∧ (∀ cs m : List Char, matchOutlinerMarker cs = some m →
        (∃ core, m = cs.takeWhile jsWhitespace ++ core)
        ∧ ∃ tail, cs = m ++ tail) := by
  constructor
  · intro cs
    rw [matchOutlinerMarker, isSome_optionMap]
    exact matchAlternation_isSome _
  · intro cs m h
    obtain ⟨core, tail, _, hm, hps⟩ := matchOutlinerMarker_parts cs m h
    exact ⟨⟨core, hm⟩, ⟨tail, hps⟩⟩

/-- Witness for C4 (amended) on the concrete line "  - item". -/
theorem claimC4_witness :
    ((matchOutlinerMarker "  - item".toList).isSome
        = specMarkerWs "  - item".toList)
    ∧ ((∃ core, "  - ".toList
          = "  - item".toList.takeWhile jsWhitespace ++ core)
        ∧ ∃ tail, "  - item".toList = "  - ".toList ++ tail) :=
  ⟨claimC4_amended.1 ("  - item".toList),
   claimC4_amended.2 ("  - item".toList) ("  - ".toList) (by decide)⟩

/-- Claim C5 (counterexample): on the line "-  " (dash, space, space)
the parser finds the marker "- ", the line is not exactly that marker,
yet the command leaves the line unchanged instead of truncating it to
the marker — because the source compares trimmed strings. -/
theorem claimC5_counterexample :
    matchOutlinerMarker "-  ".toList = some "- ".toList
    ∧ "-  ".toList ≠ "- ".toList
    ∧ emptyCurrentLineContentExceptMarker ⟨"-  ".toList, 3⟩ = ⟨"-  ".toList, 3⟩
    ∧ emptyCurrentLineContentExceptMarker ⟨"-  ".toList, 3⟩ ≠ ⟨"- ".toList, 2⟩ := by
  decide

/-- Claim C5 (amended): when a marker is found the do-nothing case is
decided by comparing the whitespace-trimmed line with the
whitespace-trimmed marker: on trim-equality (in particular when the line
is exactly the marker) the line and cursor are left unchanged; otherwise
the line becomes exactly the marker with the cursor right after it; with
no marker the line becomes empty with the cursor at column 0. -/
theorem claimC5_amended (ls : LineState) :
    (∀ marker, matchOutlinerMarker ls.text = some marker →
        (jsTrim ls.text = jsTrim marker →
          emptyCurrentLineContentExceptMarker ls = ls)
        ∧ (jsTrim ls.text ≠ jsTrim marker →
          emptyCurrentLineContentExceptMarker ls = ⟨marker, marker.length⟩)
        ∧ (ls.text = marker →
          emptyCurrentLineContentExceptMarker ls = ls))
    ∧ (matchOutlinerMarker ls.text = none →
        emptyCurrentLineContentExceptMarker ls = ⟨[], 0⟩) := by
  constructor
  · intro marker hm
    refine ⟨?_, ?_, ?_⟩
    · intro ht
      simp [emptyCurrentLineContentExceptMarker, hm, ht]
    · intro ht
      simp [emptyCurrentLineContentExceptMarker, hm, ht]
    · intro heq
      have ht : jsTrim ls.text = jsTrim marker := by rw [heq]
      simp [emptyCurrentLineContentExceptMarker, hm, ht]
  · intro hm
    simp [emptyCurrentLineContentExceptMarker, hm]

/-- Witness for C5 (amended): the spec's three examples — "- done"
truncates to "- " with the cursor at column 2, "- " is left unchanged,
and "plain" becomes empty with the cursor at column 0. -/
theorem claimC5_witness :
    emptyCurrentLineContentExceptMarker ⟨"- done".toList, 6⟩ = ⟨"- ".toList, 2⟩
    ∧ emptyCurrentLineContentExceptMarker ⟨"- ".toList, 1⟩ = ⟨"- ".toList, 1⟩
    ∧ emptyCurrentLineContentExceptMarker ⟨"plain".toList, 2⟩ = ⟨[], 0⟩ :=
  ⟨by
    have := ((claimC5_amended ⟨"- done".toList, 6⟩).1 ("- ".toList)
      (by decide)).2.1 (by decide)
    simpa using this,
   ((claimC5_amended ⟨"- ".toList, 1⟩).1 ("- ".toList) (by decide)).1 (by decide),
   (claimC5_amended ⟨"plain".toList, 2⟩).2 (by decide)⟩

/-- Claim C6: the select-or-cancel command collapses an active selection
to its end point, and otherwise selects the current line from just after
the marker (column 0 when there is none) to the end of the line text. -/
theorem claimC6 :
    (∀ (e : EditorSelState) (f t : Nat × Nat), e.sel = some (f, t) →
        selectCurrentLineOrCancel e =
          { e with sel := none, curLine := t.1, cursorCh := t.2 })
    ∧ (∀ (e : EditorSelState) (m : List Char), e.sel = none →
        matchOutlinerMarker e.lineText = some m →
        (selectCurrentLineOrCancel e).sel =
          some ((e.curLine, m.length), (e.curLine, e.lineText.length)))
    ∧ (∀ e : EditorSelState, e.sel = none →
        matchOutlinerMarker e.lineText = none →
        (selectCurrentLineOrCancel e).sel =
          some ((e.curLine, 0), (e.curLine, e.lineText.length))) := by
  refine ⟨?_, ?_, ?_⟩
  · intro e f t hsel
    simp [selectCurrentLineOrCancel, hsel]
  · intro e m hsel hm
    simp [selectCurrentLineOrCancel, hsel, markerStartCh, hm]
  · intro e hsel hm
    simp [selectCurrentLineOrCancel, hsel, markerStartCh, hm]

/-- Witness for C6: on "- hello" with no selection the command selects
columns 2 to 7; with an active selection it collapses to the end
point. -/
theorem claimC6_witness :
    selectCurrentLineOrCancel ⟨"- hello".toList, 4, 3, some ((4, 2), (4, 7))⟩
        = ⟨"- hello".toList, 4, 7, none⟩
    ∧ (selectCurrentLineOrCancel ⟨"- hello".toList, 4, 3, none⟩).sel
        = some ((4, 2), (4, 7))
    ∧ (selectCurrentLineOrCancel ⟨"plain".toList, 0, 1, none⟩).sel
        = some ((0, 0), (0, 5)) :=
  ⟨claimC6.1 ⟨"- hello".toList, 4, 3, some ((4, 2), (4, 7))⟩ (4, 2) (4, 7) rfl,
   by
    have := claimC6.2.1 ⟨"- hello".toList, 4, 3, none⟩ ("- ".toList) rfl (by decide)
    simpa using this,
   by
    have := claimC6.2.2 ⟨"plain".toList, 0, 1, none⟩ rfl (by decide)
    simpa using this⟩

/-- Claim C8 (counterexample): in the current version onload registers
only one activity handler — the editor-change (edit) signal, wrapped in
debounce — so key presses, pointer presses, pointer moves and focus
changes do not invoke resetIdleTimer at all, and the one signal that
does is itself coalesced. -/
theorem claimC8_counterexample :
    onloadRegistrations
        = [⟨ActivitySignal.editorChange, HandlerKind.resetDebounced 500⟩]
    ∧ (¬ ∃ r ∈ onloadRegistrations, r.signal = ActivitySignal.keydown)
    ∧ (¬ ∃ r ∈ onloadRegistrations, r.signal = ActivitySignal.mousemove)
    ∧ (∀ r ∈ onloadRegistrations, r.handler ≠ HandlerKind.resetDirect) := by
  decide

/-- Claim C8 (amended): in the current version only the edit signal
(editor-change) invokes resetIdleTimer and that handler is coalesced
with the 500 ms debounce window; in the earlier 0.1.1 version all five
activity signals invoked resetIdleTimer and exactly the pointer-move
signal was coalesced; and the coalescing filter invokes the wrapped
function at most once per window (successive accepted times are at
least a window apart). -/
theorem claimC8_amended :
    (onloadRegistrations.map Registration.signal
        = [ActivitySignal.editorChange])
    ∧ (∀ r ∈ onloadRegistrations,
        r.handler = HandlerKind.resetDebounced DEBOUNCE_DELAY_MS)
    ∧ (onloadRegistrationsV011.map Registration.signal
        = [ActivitySignal.editorChange, ActivitySignal.activeLeafChange,
           ActivitySignal.keydown, ActivitySignal.mousedown,
           ActivitySignal.mousemove])
    ∧ (∀ r ∈ onloadRegistrationsV011,
        (isDebounced r.handler = true ↔ r.signal = ActivitySignal.mousemove))
    ∧ (∀ (w : Nat) (ts : List Nat),
        List.Chain' (fun a b => a + w ≤ b) (coalesceWindow w ts)) :=
  ⟨by decide, by decide, by decide, by decide, coalesceWindow_spaced⟩

/-- Witness for C8 (amended) at concrete registrations and a concrete
call-time list. -/
theorem claimC8_witness :
    (Registration.mk ActivitySignal.editorChange
        (HandlerKind.resetDebounced 500)).handler
      = HandlerKind.resetDebounced DEBOUNCE_DELAY_MS
    ∧ (isDebounced (Registration.mk ActivitySignal.mousemove
        (HandlerKind.resetDebounced 500)).handler = true
      ↔ (Registration.mk ActivitySignal.mousemove
        (HandlerKind.resetDebounced 500)).signal = ActivitySignal.mousemove)
    ∧ List.Chain' (fun a b => a + 500 ≤ b) (coalesceWindow 500 [0, 100, 600]) :=
  ⟨claimC8_amended.2.1
     (Registration.mk ActivitySignal.editorChange (HandlerKind.resetDebounced 500))
     (by decide),
   claimC8_amended.2.2.2.1
     (Registration.mk ActivitySignal.mousemove (HandlerKind.resetDebounced 500))
     (by decide),
   claimC8_amended.2.2.2.2 500 [0, 100, 600]⟩

/-- Claim C9: loadSettings falls back to the defaults by shallow merge —
missing data or a missing field yields DEFAULT_SETTINGS (idleTimeoutMs =
60000), and a present field overrides the default. -/
theorem claimC9 :
    loadSettings none = DEFAULT_SETTINGS
    ∧ DEFAULT_SETTINGS.idleTimeoutMs = 60000
    ∧ (∀ v : Nat, loadSettings (some ⟨some v⟩) = ⟨v⟩)
    ∧ loadSettings (some ⟨none⟩) = DEFAULT_SETTINGS :=
  ⟨rfl, rfl, fun _ => rfl, rfl⟩

/-- Claim C10: whenever the whitespace-trimmed line equals the
whitespace-trimmed marker, the empty-except-marker command leaves line
and cursor unchanged, even when the line is not exactly the matched
marker. -/
theorem claimC10 (ls : LineState) (marker : List Char)
    (hm : matchOutlinerMarker ls.text = some marker)
    (ht : jsTrim ls.text = jsTrim marker) :
    emptyCurrentLineContentExceptMarker ls = ls := by
  simp [emptyCurrentLineContentExceptMarker, hm, ht]

/-- Witness for C10 on the line "-  ", which is the marker "- " plus a
trailing space and hence not exactly the marker. -/
theorem claimC10_witness :
    matchOutlinerMarker "-  ".toList = some "- ".toList
    ∧ "-  ".toList ≠ "- ".toList
    ∧ emptyCurrentLineContentExceptMarker ⟨"-  ".toList, 1⟩ = ⟨"-  ".toList, 1⟩ :=
  ⟨by decide, by decide,
   claimC10 ⟨"-  ".toList, 1⟩ ("- ".toList) (by decide) (by decide)⟩
